import Mathlib

/-!
Verification of the nestjs-log-decorator repository against its
natural-language specification.

The development shallowly embeds the TypeScript sources:
* `src/LogWrapper.ts` (`buildArgsObject`, `createLogWrapper`, `LogWrapper`),
* `src/axios/axios.logger.ts` (`prettifyAxiosError`),
* `src/decorate/applyToMethod.ts` and `src/decorate/applyToClass.ts`,
* `src/log.decorator.ts` (`Log`, `NoLog`),
* the `AuthenticatedHttpService` client (`withHttpRetry`, `withAuthRetry`,
  `authenticate`, `performAuthentication`, `ensureAuthenticated`,
  `isRetryableError`).

JavaScript runtime values are modelled by the inductive type `Value`;
JavaScript objects become association lists of string keys with JS
assignment semantics (`setField`) and JS member access semantics
(`getField`, absent fields read as `undefined`).
-/

namespace LogDecorator

/-- A JavaScript runtime value, as far as the logging library observes it:
`undefined`, `null`, booleans, numbers, strings and plain objects
(association lists from field name to value, in insertion order). -/
inductive Value where
  | undefined : Value
  | null : Value
  | bool : Bool → Value
  | num : Int → Value
  | str : String → Value
  | obj : List (String × Value) → Value

/-- First-match lookup in an object's field list; absent keys read as
`undefined`, following JavaScript member access. -/
def lookupField : List (String × Value) → String → Value
  | [], _ => .undefined
  | (k, v) :: rest, key => if k = key then v else lookupField rest key

/-- JavaScript member access `o[key]`: fields of non-objects read as
`undefined`. -/
def getField : Value → String → Value
  | .obj fields, key => lookupField fields key
  | _, _ => .undefined

/-- JavaScript assignment `o[key] = v`: overwrites the existing entry in
place, otherwise appends a new entry in insertion order. -/
def setField (fields : List (String × Value)) (key : String) (v : Value) :
    List (String × Value) :=
  match fields with
  | [] => [(key, v)]
  | (k, w) :: rest => if k = key then (k, v) :: rest else (k, w) :: setField rest key v

/-- JavaScript truthiness of a `Value`. -/
def truthy : Value → Bool
  | .undefined => false
  | .null => false
  | .bool b => b
  | .num n => decide (n ≠ 0)
  | .str s => decide (s ≠ "")
  | .obj _ => true

/-! ### Error normalizer (`src/axios/axios.logger.ts`) -/

/-- `isObject` from the axios stub: non-null and of object type. -/
def isObjectValue : Value → Bool
  | .obj _ => true
  | _ => false

/-- `isAxiosError` from the axios stub
(`isObject(payload) && payload.isAxiosError === true`): note the strict
equality with the boolean `true`. -/
def isAxiosError (v : Value) : Bool :=
  isObjectValue v &&
    (match getField v "isAxiosError" with
     | .bool true => true
     | _ => false)

/-- `prettifyRequest` from `axios.logger.ts`: a falsy `config` degrades to
the literal string `"Empty request"`; otherwise a record of the request
fields is built, absent sub-fields reading as `undefined`. -/
def prettifyRequest (request : Value) : Value :=
  if truthy request = false then .str "Empty request"
  else .obj [("method", getField request "method"),
             ("url", getField request "url"),
             ("baseURL", getField request "baseURL"),
             ("path", getField request "path"),
             ("headers", getField request "headers"),
             ("data", getField request "data"),
             ("params", getField request "params")]

/-- `prettifyResponse` from `axios.logger.ts`: a falsy `response` degrades
to the literal string `"Empty response"`. -/
def prettifyResponse (response : Value) : Value :=
  if truthy response = false then .str "Empty response"
  else .obj [("status", getField response "status"),
             ("statusText", getField response "statusText"),
             ("data", getField response "data"),
             ("headers", getField response "headers")]

/-- `prettifyAxiosError` from `axios.logger.ts` (the copy in
`LogWrapper.ts`'s import site is textually identical): pass-through for
values failing `isAxiosError`, otherwise a fresh descriptive record. -/
def prettifyAxiosError (e : Value) : Value :=
  if isAxiosError e = false then e
  else .obj [("name", getField e "name"),
             ("error", getField e "message"),
             ("code", getField e "code"),
             ("config", prettifyRequest (getField e "config")),
             ("response", prettifyResponse (getField e "response")),
             ("stack", getField e "stack")]

/-! ### Argument capture (`buildArgsObject` in `src/LogWrapper.ts`) -/

/-- The `forEach` loop body of `buildArgsObject`: for each parameter name
with its index, assign `argsObject[paramName] = args[index]` when the
index is within the supplied arguments. -/
def buildArgsStep (args : List Value) (acc : List (String × Value))
    (p : Nat × String) : List (String × Value) :=
  if p.1 < args.length then setField acc p.2 (args.getD p.1 .undefined) else acc

/-- `buildArgsObject` from `src/LogWrapper.ts`: `undefined` (here `none`)
when both the parameter list and the argument list are empty, otherwise
the object built by the indexed `forEach` over the parameter names. -/
def buildArgsObject (parameterNames : List String) (args : List Value) :
    Option (List (String × Value)) :=
  if args.length = 0 ∧ parameterNames.length = 0 then none
  else some (parameterNames.enum.foldl (buildArgsStep args) [])

/-! ### Method interception
(`src/decorate/applyToMethod.ts`, `src/LogWrapper.ts`) -/

/-- The outcome of executing an original method body with fixed arguments:
an immediate (non-promise) return value, a synchronous throw, or a
returned promise that later resolves or rejects. -/
inductive MethodResult where
  | immediate : Value → MethodResult
  | thrown : Value → MethodResult
  | promise : Except Value Value → MethodResult

/-- The caller-visible outcome of a call through a (possibly wrapped)
method: a returned value, a synchronously thrown error, or a returned
promise that resolves or rejects. -/
inductive CallOutcome where
  | ret : Value → CallOutcome
  | exn : Value → CallOutcome
  | promiseOk : Value → CallOutcome
  | promiseErr : Value → CallOutcome

/-- The `state` field of a structured log record
(`LogWrapper.invoked/success/error`). -/
inductive LogState where
  | invoked
  | success
  | error
  deriving DecidableEq, Repr

/-- One structured record emitted to the logging sink. `invoked` and
`success` records go through `logger.log`, `error` records through
`logger.error`; the channel is determined by `state`. The `error` field
is present (`some`) only on error records. -/
structure LogEvent where
  method : String
  state : LogState
  args : Value
  error : Option Value

/-- The wrap-time configuration `LogOptions` (`src/types.ts`): the
`onInvoke` flag (default `false`) and the optional caller-supplied
argument formatter. -/
structure WrapOptions where
  onInvoke : Bool := false
  formatArgs : Option (List Value → Value) := none

/-- The call receiver, as observed by `createLogWrapper`: whether it
exposes the `logger` sink (`isLoggable`), and `target.constructor.name`
used in the configuration error message. -/
structure Instance where
  hasLogger : Bool
  className : String

/-- A method-table entry (a function value). `plain` is an original,
unwrapped method body with its declared parameter names; `wrapped` is an
interceptor produced by `applyToMethod`, closing over the parameter
names extracted at wrap time, the wrap-time options and the inner
function. Each carries the hidden `NO_LOG_METADATA_KEY` mark (a property
on the function object, set by `NoLog`). -/
inductive MethodVal where
  | plain : List String → MethodResult → Bool → MethodVal
  | wrapped : List String → WrapOptions → MethodVal → Bool → MethodVal

/-- Reads the hidden `NO_LOG_METADATA_KEY` mark on a function value. -/
def noLogOf : MethodVal → Bool
  | .plain _ _ mark => mark
  | .wrapped _ _ _ mark => mark

/-- The `NoLog` decorator (`src/log.decorator.ts`): sets the hidden mark
on the current function value of the descriptor. -/
def noLogMark : MethodVal → MethodVal
  | .plain p b _ => .plain p b true
  | .wrapped p o i _ => .wrapped p o i true

/-- `getParameterNames` applied to a function value. For an original
method it yields the declared parameter names. For a wrapper produced by
`applyToMethod` the function text is `function (...args) { ... }`, whose
parenthesised parameter list parses to the single entry `"...args"`
(split on commas, strip after `:` or `=`, trim, drop empties). -/
def getParameterNamesOf : MethodVal → List String
  | .plain pnames _ _ => pnames
  | .wrapped _ _ _ _ => ["...args"]

/-- The captured-arguments value of one call: the caller-supplied
formatter applied to the raw arguments when present, otherwise
`buildArgsObject` over the wrap-time parameter names (an absent result
is the JavaScript value `undefined`). -/
def capturedArgs (opts : WrapOptions) (parameterNames : List String)
    (args : List Value) : Value :=
  match opts.formatArgs with
  | some f => f args
  | none =>
    match buildArgsObject parameterNames args with
    | none => .undefined
    | some m => .obj m

/-- The message of the configuration error thrown by `createLogWrapper`
when the instance does not expose the `logger` sink. -/
def loggerNotFoundMessage (className : String) : String :=
  "Logger not found in " ++ className ++ ". " ++
    "Please add: readonly logger = new Logger(" ++ className ++ ".name)"

/-- The `Error` object thrown by `createLogWrapper` on a missing sink. -/
def configErrorValue (className : String) : Value :=
  .obj [("name", .str "Error"), ("message", .str (loggerNotFoundMessage className))]

/-- A `state: invoked` record as built by `LogWrapper.invoked`. -/
def invokedEvent (method : String) (args : Value) : LogEvent :=
  ⟨method, .invoked, args, none⟩

/-- A `state: success` record as built by `LogWrapper.success`. -/
def successEvent (method : String) (args : Value) : LogEvent :=
  ⟨method, .success, args, none⟩

/-- A `state: error` record as built by `LogWrapper.error`: the logged
error is normalized by `prettifyAxiosError`. -/
def errorEvent (method : String) (args : Value) (e : Value) : LogEvent :=
  ⟨method, .error, args, some (prettifyAxiosError e)⟩

/-- Direct invocation of an unwrapped method body. -/
def outcomeOfBody : MethodResult → CallOutcome
  | .immediate v => .ret v
  | .thrown e => .exn e
  | .promise (.ok v) => .promiseOk v
  | .promise (.error e) => .promiseErr e

/-- `applyToMethod` (`src/decorate/applyToMethod.ts`): replaces the
descriptor value with a wrapper closing over the parameter names
extracted from the original function at wrap time and the options; the
fresh wrapper function carries no `NoLog` mark. No instance is available
at wrap time, so no logger check happens here. -/
def applyToMethod (opts : WrapOptions) (m : MethodVal) : MethodVal :=
  .wrapped (getParameterNamesOf m) opts m false

/-- Calling a method value on an instance: returns the ordered list of
records emitted to the sink by this call (settlement records of a
returned promise included, in settlement order) and the caller-visible
outcome. Mirrors the wrapper body of `applyToMethod` and
`handleAsyncExecution`: capture arguments, resolve the sink (failing
fast with the configuration error before executing the body), optionally
emit `invoked`, run the original function, then emit `success` on an
immediate value or attach `success`/`error` settlement logging to a
returned promise; a synchronous throw emits `error` and re-throws the
identical error. -/
def callMethod (inst : Instance) (methodName : String) (args : List Value) :
    MethodVal → List LogEvent × CallOutcome
  | .plain _ body _ => ([], outcomeOfBody body)
  | .wrapped pnames opts inner _ =>
    let argsObject := capturedArgs opts pnames args
    if inst.hasLogger = false then
      ([], .exn (configErrorValue inst.className))
    else
      let pre := if opts.onInvoke = true then [invokedEvent methodName argsObject] else []
      let res := callMethod inst methodName args inner
      match res.2 with
      | .ret v => (pre ++ res.1 ++ [successEvent methodName argsObject], .ret v)
      | .exn e => (pre ++ res.1 ++ [errorEvent methodName argsObject e], .exn e)
      | .promiseOk v => (pre ++ res.1 ++ [successEvent methodName argsObject], .promiseOk v)
      | .promiseErr e => (pre ++ res.1 ++ [errorEvent methodName argsObject e], .promiseErr e)

/-! ### Class-level application (`src/decorate/applyToClass.ts`) -/

/-- The `forEach` body of `applyToClass` on one own property of the
prototype: skip the constructor, skip function values carrying the
`NoLog` mark, and wrap every other method with the class-level options. -/
def classEntry (opts : WrapOptions) (entry : String × MethodVal) :
    String × MethodVal :=
  if entry.1 = "constructor" then entry
  else if noLogOf entry.2 = true then entry
  else (entry.1, applyToMethod opts entry.2)

/-- `applyToClass`: applies `classEntry` to every function-valued own
property of the prototype's method table. -/
def applyToClass (opts : WrapOptions) (table : List (String × MethodVal)) :
    List (String × MethodVal) :=
  table.map (classEntry opts)

/-! ### Authenticated HTTP client: transport retry
(`AuthenticatedHttpService.withHttpRetry` / `isRetryableError`) -/

/-- `isRetryableError`: any value that is not a recognized axios error is
retryable (network/timeout), an axios error with a falsy `response` is
retryable, and otherwise the numeric response status must lie in
`[500, 600)`. A non-numeric status compares false, as the JavaScript
`status >= 500 && status < 600` does for `undefined`. -/
def isRetryableError (e : Value) : Bool :=
  if isAxiosError e = false then true
  else if truthy (getField e "response") = false then true
  else
    match getField (getField e "response") "status" with
    | .num s => decide (500 ≤ s ∧ s < 600)
    | _ => false

/-- Modelled from the spec: the retry combinator provided by the external
`p-retry` dependency (not part of this repository's sources), as
configured by `withHttpRetry`. `attempts k` is the outcome of the `k`-th
invocation (0-based) of the wrapped request. With `retriesLeft` retries
remaining: run the attempt; on success return the value; on a failure
that `shouldRetry` accepts while retries remain, record the backoff
delay `minTimeout * factor ^ k` and recurse; otherwise raise the last
error unchanged. Returns the list of backoff delays (one per performed
retry) and the final outcome. -/
def pRetryGo (shouldRetry : Value → Bool) (attempts : Nat → Except Value Value)
    (minTimeout factor : Nat) : Nat → Nat → List Nat × Except Value Value
  | 0, k => ([], attempts k)
  | r + 1, k =>
    match attempts k with
    | .ok v => ([], .ok v)
    | .error e =>
      if shouldRetry e = true then
        let p := pRetryGo shouldRetry attempts minTimeout factor r (k + 1)
        (minTimeout * factor ^ k :: p.1, p.2)
      else ([], .error e)

/-- `withHttpRetry`: `pRetry` with `retries: 5`, `minTimeout: 1000`,
`factor: 2` and `shouldRetry` given by `isRetryableError`. -/
def withHttpRetry (attempts : Nat → Except Value Value) :
    List Nat × Except Value Value :=
  pRetryGo isRetryableError attempts 1000 2 5 0

/-! ### Authenticated HTTP client: 401 re-authentication retry
(`AuthenticatedHttpService.withAuthRetry`, `ensureAuthenticated`) -/

/-- The check of `withAuthRetry`'s catch branch:
`isAxiosError(error) && error.response?.status === 401`. -/
def is401 (e : Value) : Bool :=
  isAxiosError e &&
    (match getField (getField e "response") "status" with
     | .num s => decide (s = 401)
     | _ => false)

/-- The token slice of the client state
(`token` / `tokenExpiry` fields of `AuthenticatedHttpService`). -/
structure AuthState where
  token : Option String
  tokenExpiry : Int

/-- The freshness test of `ensureAuthenticated`:
`!this.token || now >= this.tokenExpiry - 60`. -/
def needsRefresh (st : AuthState) (now : Int) : Bool :=
  st.token.isNone || decide (now ≥ st.tokenExpiry - 60)

/-- An observable step of one verb-operation dispatch: an authentication
round trip (`performAuthentication`'s request) or the `k`-th invocation
of the transport-retry-wrapped request function. -/
inductive ReqEvent where
  | authRoundTrip
  | requestAttempt : Nat → ReqEvent
  deriving DecidableEq, Repr

/-- `withAuthRetry`: run the wrapped request; on a failure recognized as
a 401 axios error, unconditionally `authenticate()` (not
`ensureAuthenticated()`, so not subject to the freshness check) and — if
that re-authentication succeeded — run the request exactly once more,
returning or raising the second outcome directly; every other failure is
re-raised unchanged. `authOutcome` is the outcome an authentication
round trip would produce; `fn k` the outcome of invocation `k` of the
wrapped request. -/
def withAuthRetryRun (authOutcome : Except Value AuthState)
    (fn : Nat → Except Value Value) : List ReqEvent × Except Value Value :=
  match fn 0 with
  | .ok v => ([.requestAttempt 0], .ok v)
  | .error e =>
    if is401 e = true then
      match authOutcome with
      | .error ae => ([.requestAttempt 0, .authRoundTrip], .error ae)
      | .ok _ => ([.requestAttempt 0, .authRoundTrip, .requestAttempt 1], fn 1)
    else ([.requestAttempt 0], .error e)

/-- `ensureAuthenticated`: authenticate only when the token is unset or
expires within 60 seconds; a fresh token performs no round trip. -/
def ensureAuthenticatedRun (st : AuthState) (now : Int)
    (authOutcome : Except Value AuthState) :
    List ReqEvent × Except Value AuthState :=
  if needsRefresh st now = true then ([.authRoundTrip], authOutcome)
  else ([], .ok st)

/-- One verb-operation dispatch (`get`/`post`/`put`/`patch`/`delete`):
`ensureAuthenticated()` followed by `executeRequest`, which is
`withAuthRetry` wrapped around the transport-retried request. -/
def verbDispatch (st : AuthState) (now : Int)
    (authOutcome : Except Value AuthState) (fn : Nat → Except Value Value) :
    List ReqEvent × Except Value Value :=
  match ensureAuthenticatedRun st now authOutcome with
  | (evs, .error ae) => (evs, .error ae)
  | (evs, .ok _) =>
    let p := withAuthRetryRun authOutcome fn
    (evs ++ p.1, p.2)

/-! ### Authenticated HTTP client: coalescing of concurrent
authentication (`authenticate` / `performAuthentication`)

The runtime is single-threaded and cooperative (§5 of the spec): between
two suspension points no other caller runs. `authenticate()` checks the
`authenticationPromise` handle; a caller finding it non-null awaits the
existing in-flight attempt, a caller finding it null starts
`performAuthentication()` (one authentication round trip) and stores its
handle; the handle is cleared in a `finally`, on success and on failure
alike, and every awaiting caller observes the one settled outcome. The
interleaving is modelled by an explicit action sequence: `arrive c`
(caller `c` invokes `authenticate()`) and `complete o` (the in-flight
round trip settles with outcome `o`, distributing it to all attached
callers and running the `finally`). -/

/-- A scheduler action on one client instance. An authentication outcome
is an error value or a `(token, expiry)` pair as produced by the
configured `responseExtractor`. -/
inductive AuthAction where
  | arrive : Nat → AuthAction
  | complete : Except Value (String × Int) → AuthAction

/-- The coalescing state of one client: the in-flight handle with its
attached waiters (`authenticationPromise`), the number of authentication
round trips started, the token slice, and the outcome observed by each
caller that has completed `authenticate()`. -/
structure CoalesceState where
  inflight : Option (List Nat)
  roundTrips : Nat
  token : Option String
  tokenExpiry : Int
  results : List (Nat × Except Value (String × Int))

/-- One scheduler step. `arrive c`: a caller finding a non-null handle
attaches to it, a caller finding a null handle starts a new
round trip. `complete o`: the in-flight attempt settles; on success the
token and expiry are stored before resolving; each attached caller
observes `o`; the `finally` clears the handle on both outcomes. -/
def authStep (s : CoalesceState) : AuthAction → CoalesceState
  | .arrive c =>
    match s.inflight with
    | some ws => { s with inflight := some (ws ++ [c]) }
    | none => { s with inflight := some [c], roundTrips := s.roundTrips + 1 }
  | .complete o =>
    match s.inflight with
    | none => s
    | some ws =>
      match o with
      | .ok (tok, exp) =>
        { s with inflight := none, token := some tok, tokenExpiry := exp,
                 results := s.results ++ ws.map (fun c => (c, o)) }
      | .error _ =>
        { s with inflight := none,
                 results := s.results ++ ws.map (fun c => (c, o)) }

/-- Runs a scheduled sequence of actions on a client state. -/
def runAuth (acts : List AuthAction) (s : CoalesceState) : CoalesceState :=
  acts.foldl authStep s

/-! ### String containment (used to reason about the configuration error
message) -/

/-- Whether `pat` is an initial segment of `l`. -/
def startsWithChars : List Char → List Char → Bool
  | _, [] => true
  | [], _ :: _ => false
  | c :: cs, d :: ds => decide (c = d) && startsWithChars cs ds

/-- Whether `pat` occurs contiguously inside `l`. -/
def containsChars : List Char → List Char → Bool
  | [], pat => startsWithChars [] pat
  | c :: rest, pat => startsWithChars (c :: rest) pat || containsChars rest pat

/-- Whether the string `pat` occurs contiguously inside `s`. -/
def strContainsStr (s pat : String) : Bool :=
  containsChars s.toList pat.toList

/-! ## Helper lemmas -/

theorem startsWithChars_append (pat r : List Char) :
    startsWithChars (pat ++ r) pat = true := by
  induction pat with
  | nil => simp [startsWithChars]
  | cons c cs ih => simp [startsWithChars, ih]

theorem containsChars_of_startsWithChars {l pat : List Char}
    (h : startsWithChars l pat = true) : containsChars l pat = true := by
  cases l with
  | nil => simpa [containsChars] using h
  | cons c rest => simp [containsChars, h]

theorem containsChars_append_right (x : List Char) {y pat : List Char}
    (h : containsChars y pat = true) : containsChars (x ++ y) pat = true := by
  induction x with
  | nil => simpa using h
  | cons c cs ih => simp [containsChars, ih]

theorem getField_obj (fields : List (String × Value)) (key : String) :
    getField (Value.obj fields) key = lookupField fields key := rfl

/-- The keys of an object's field list, in order. -/
def fieldKeys (fields : List (String × Value)) : List String :=
  fields.map Prod.fst

theorem setField_of_not_mem {fields : List (String × Value)} {key : String}
    (v : Value) (h : key ∉ fieldKeys fields) :
    setField fields key v = fields ++ [(key, v)] := by
  induction fields with
  | nil => rfl
  | cons p rest ih =>
    obtain ⟨k, w⟩ := p
    rw [fieldKeys, List.map_cons, List.mem_cons] at h
    push_neg at h
    simp only [setField]
    rw [if_neg (fun hh => h.1 hh.symm), ih h.2]
    simp

/-- The association list that the indexed `forEach` of `buildArgsObject`
appends from parameter position `n` onwards (for pairwise-distinct
parameter names). -/
def zipFromIdx (args : List Value) : Nat → List String → List (String × Value)
  | _, [] => []
  | n, p :: ps =>
    if n < args.length then (p, args.getD n .undefined) :: zipFromIdx args (n + 1) ps
    else zipFromIdx args (n + 1) ps

theorem buildArgs_foldl_spec (args : List Value) (P : List String) :
    ∀ (n : Nat) (acc : List (String × Value)),
      P.Nodup → (∀ p ∈ P, p ∉ fieldKeys acc) →
      (List.enumFrom n P).foldl (buildArgsStep args) acc
        = acc ++ zipFromIdx args n P := by
  induction P with
  | nil => intro n acc _ _; simp [zipFromIdx]
  | cons p ps ih =>
    intro n acc hnodup hfresh
    have hstep : List.enumFrom n (p :: ps) = (n, p) :: List.enumFrom (n + 1) ps := rfl
    rw [hstep, List.foldl_cons]
    have hfresh_p : p ∉ fieldKeys acc := hfresh p (List.mem_cons_self p ps)
    rw [List.nodup_cons] at hnodup
    by_cases hn : n < args.length
    · have hstep2 : buildArgsStep args acc (n, p)
          = setField acc p (args.getD n .undefined) := by
        simp [buildArgsStep, hn]
      rw [hstep2, setField_of_not_mem _ hfresh_p,
          ih (n + 1) (acc ++ [(p, args.getD n .undefined)]) hnodup.2 ?fresh]
      · simp [zipFromIdx, hn]
      case fresh =>
        intro q hq
        have hql : q ∉ fieldKeys acc := hfresh q (List.mem_cons_of_mem _ hq)
        have hqp : q ≠ p := fun hqp => hnodup.1 (hqp ▸ hq)
        intro hmem
        rcases (by simpa [fieldKeys] using hmem :
            q ∈ fieldKeys acc ∨ q = p) with hl | hr
        · exact hql hl
        · exact hqp hr
    · have hstep2 : buildArgsStep args acc (n, p) = acc := by
        simp [buildArgsStep, hn]
      rw [hstep2, ih (n + 1) acc hnodup.2
          (fun q hq => hfresh q (List.mem_cons_of_mem _ hq))]
      simp [zipFromIdx, hn]

theorem zipFromIdx_eq_zip (args : List Value) (P : List String) :
    ∀ n : Nat, zipFromIdx args n P = P.zip (args.drop n) := by
  induction P with
  | nil => intro n; simp [zipFromIdx]
  | cons p ps ih =>
    intro n
    by_cases hn : n < args.length
    · have hdrop : args.drop n = args[n] :: args.drop (n + 1) :=
        List.drop_eq_getElem_cons hn
      have hgetD : args.getD n Value.undefined = args[n] := by
        simp [List.getD_eq_getElem?_getD, List.getElem?_eq_getElem hn]
      have hz : zipFromIdx args n (p :: ps)
          = if n < args.length
            then (p, args.getD n Value.undefined) :: zipFromIdx args (n + 1) ps
            else zipFromIdx args (n + 1) ps := rfl
      rw [hz, if_pos hn, hgetD, ih (n + 1), hdrop, List.zip_cons_cons]
    · have hdrop : args.drop n = [] :=
        List.drop_eq_nil_of_le (Nat.le_of_not_lt hn)
      have hdrop2 : args.drop (n + 1) = [] :=
        List.drop_eq_nil_of_le (Nat.le_succ_of_le (Nat.le_of_not_lt hn))
      have hz : zipFromIdx args n (p :: ps)
          = if n < args.length
            then (p, args.getD n Value.undefined) :: zipFromIdx args (n + 1) ps
            else zipFromIdx args (n + 1) ps := rfl
      rw [hz, if_neg hn, ih (n + 1), hdrop, hdrop2]
      simp

/-- Evaluating an intercepted method whose wrapping succeeded in finding
the sink: shape of the wrapper around a plain body. -/
theorem callMethod_wrapped_plain (inst : Instance) (hlog : inst.hasLogger = true)
    (name : String) (pn : List String) (opts : WrapOptions) (mark : Bool)
    (body : MethodResult) (args : List Value) :
    callMethod inst name args (applyToMethod opts (.plain pn body mark))
      = ((if opts.onInvoke = true
            then [invokedEvent name (capturedArgs opts pn args)] else [])
          ++ [match outcomeOfBody body with
              | .ret _ => successEvent name (capturedArgs opts pn args)
              | .promiseOk _ => successEvent name (capturedArgs opts pn args)
              | .exn e => errorEvent name (capturedArgs opts pn args) e
              | .promiseErr e => errorEvent name (capturedArgs opts pn args) e],
         outcomeOfBody body) := by
  cases body with
  | immediate v => simp [callMethod, applyToMethod, getParameterNamesOf, hlog, outcomeOfBody]
  | thrown e => simp [callMethod, applyToMethod, getParameterNamesOf, hlog, outcomeOfBody]
  | promise o =>
    cases o with
    | ok v => simp [callMethod, applyToMethod, getParameterNamesOf, hlog, outcomeOfBody]
    | error e => simp [callMethod, applyToMethod, getParameterNamesOf, hlog, outcomeOfBody]

/-! ## Claims -/

/-- C1: for every call through an intercepted method whose original body
returns an immediate (non-promise) value without throwing, exactly one
`success` event is emitted, its `args` field is the captured arguments
(not the return value), the original return value is returned unchanged,
and an `invoked` event is emitted if and only if the wrap-time `onInvoke`
option was true, in which case `invoked` precedes `success`. -/
theorem C1_sync_success (inst : Instance) (hlog : inst.hasLogger = true)
    (name : String) (pn : List String) (opts : WrapOptions) (mark : Bool)
    (v : Value) (args : List Value) :
    (callMethod inst name args (applyToMethod opts (.plain pn (.immediate v) mark))).2
        = .ret v ∧
    ((callMethod inst name args (applyToMethod opts (.plain pn (.immediate v) mark))).1.filter
        (fun ev => decide (ev.state = LogState.success)))
        = [successEvent name (capturedArgs opts pn args)] ∧
    (opts.onInvoke = false →
      (callMethod inst name args (applyToMethod opts (.plain pn (.immediate v) mark))).1
        = [successEvent name (capturedArgs opts pn args)]) ∧
    (opts.onInvoke = true →
      (callMethod inst name args (applyToMethod opts (.plain pn (.immediate v) mark))).1
        = [invokedEvent name (capturedArgs opts pn args),
           successEvent name (capturedArgs opts pn args)]) := by
  rw [callMethod_wrapped_plain inst hlog name pn opts mark (.immediate v) args]
  cases h : opts.onInvoke <;>
    simp [h, outcomeOfBody, invokedEvent, successEvent]

/-- Witness for C1 at a concrete call: the end-to-end example of §8 of
the spec, an instrumented method returning an immediate value. -/
theorem C1_sync_success_witness :
    (callMethod ⟨true, "UserService"⟩ "createUser" [Value.str "John"]
        (applyToMethod {} (MethodVal.plain ["name"] (.immediate (Value.str "ok")) false))).2
      = CallOutcome.ret (Value.str "ok") :=
  (C1_sync_success ⟨true, "UserService"⟩ rfl "createUser" ["name"] {} false
    (Value.str "ok") [Value.str "John"]).1

/-- C2: for every call through an intercepted method whose body throws
synchronously or whose returned promise rejects, exactly one `error`
event is emitted — its logged error normalized by `prettifyAxiosError`
(inside `errorEvent`) for the record only — and the very same error
value is re-thrown to the caller (sync) or re-rejected through the
returned promise (async), never a wrapped or replaced error. -/
theorem C2_error_rethrow_identity (inst : Instance) (hlog : inst.hasLogger = true)
    (name : String) (pn : List String) (opts : WrapOptions) (mark : Bool)
    (e : Value) (args : List Value) :
    ((callMethod inst name args (applyToMethod opts (.plain pn (.thrown e) mark))).2
        = .exn e ∧
     (callMethod inst name args (applyToMethod opts (.plain pn (.thrown e) mark))).1.filter
        (fun ev => decide (ev.state = LogState.error))
       = [errorEvent name (capturedArgs opts pn args) e]) ∧
    ((callMethod inst name args
        (applyToMethod opts (.plain pn (.promise (.error e)) mark))).2
        = .promiseErr e ∧
     (callMethod inst name args
        (applyToMethod opts (.plain pn (.promise (.error e)) mark))).1.filter
        (fun ev => decide (ev.state = LogState.error))
       = [errorEvent name (capturedArgs opts pn args) e]) := by
  rw [callMethod_wrapped_plain inst hlog name pn opts mark (.thrown e) args,
      callMethod_wrapped_plain inst hlog name pn opts mark (.promise (.error e)) args]
  cases h : opts.onInvoke <;>
    simp [h, outcomeOfBody, invokedEvent, errorEvent]

/-- Witness for C2 at a concrete call: a synchronous throw is re-thrown
by identity and logged exactly once as an error record. -/
theorem C2_error_rethrow_identity_witness :
    (callMethod ⟨true, "PaymentService"⟩ "processPayment" [Value.num (-10)]
        (applyToMethod {} (MethodVal.plain ["amount"]
          (.thrown (Value.str "Invalid amount")) false))).2
      = CallOutcome.exn (Value.str "Invalid amount") :=
  (C2_error_rethrow_identity ⟨true, "PaymentService"⟩ rfl "processPayment" ["amount"] {}
    false (Value.str "Invalid amount") [Value.num (-10)]).1.1

/-- C8: a method value carrying the `NoLog` exclusion mark is left
untouched by the class-level pass — marking any current function value,
original or previously wrapped, protects it, so the application order of
marker versus class pass is immaterial — and the marked method keeps its
original behaviour: no events are emitted for it and a thrown exception
propagates to the caller with no `error` event. -/
theorem C8_noLog_exclusion (opts : WrapOptions) (name : String) (m : MethodVal)
    (h : noLogOf m = true) :
    classEntry opts (name, m) = (name, m) ∧
    (∀ m0, noLogOf (noLogMark m0) = true) ∧
    (∀ inst args pn body mark2, m = MethodVal.plain pn body mark2 →
      callMethod inst name args m = ([], outcomeOfBody body)) ∧
    (∀ inst args pn e mark2, m = MethodVal.plain pn (.thrown e) mark2 →
      (callMethod inst name args m).1 = [] ∧
      (callMethod inst name args m).2 = .exn e) := by
  refine ⟨?_, ?_, ?_, ?_⟩
  · by_cases hc : name = "constructor" <;> simp [classEntry, hc, h]
  · intro m0; cases m0 <;> simp [noLogMark, noLogOf]
  · rintro inst args pn body mark2 rfl; simp [callMethod]
  · rintro inst args pn e mark2 rfl; simp [callMethod, outcomeOfBody]

/-- Witness for C8 at a concrete table entry: a marked throwing helper
survives the class pass unchanged and its exception propagates unlogged. -/
theorem C8_noLog_exclusion_witness :
    classEntry {} ("throwError",
        MethodVal.plain [] (.thrown (Value.str "boom")) true)
      = ("throwError", MethodVal.plain [] (.thrown (Value.str "boom")) true) :=
  (C8_noLog_exclusion {} "throwError"
    (MethodVal.plain [] (.thrown (Value.str "boom")) true) rfl).1

/-- C9 (amended): a call through an intercepted method on an instance
without the `logger` sink fails synchronously at call time with the
configuration error, before and instead of executing the original body
(the result does not depend on the inner function and no event is
emitted); the error message names the offending class and instructs the
integrator to add the missing sink — but it does not name the offending
method. -/
theorem C9_missing_sink (inst : Instance) (h : inst.hasLogger = false)
    (name : String) (pnames : List String) (opts : WrapOptions)
    (inner : MethodVal) (mark : Bool) (args : List Value) :
    callMethod inst name args (MethodVal.wrapped pnames opts inner mark)
      = ([], .exn (configErrorValue inst.className)) ∧
    strContainsStr (loggerNotFoundMessage inst.className) inst.className = true ∧
    strContainsStr (loggerNotFoundMessage inst.className)
      "Please add: readonly logger = new Logger(" = true := by
  refine ⟨?_, ?_, ?_⟩
  · simp [callMethod, h]
  · unfold strContainsStr loggerNotFoundMessage
    have h1 : ("Logger not found in " ++ inst.className ++ ". " ++
        "Please add: readonly logger = new Logger(" ++ inst.className ++ ".name)").toList
        = "Logger not found in ".toList ++ (inst.className.toList ++
            (". ".toList ++ ("Please add: readonly logger = new Logger(".toList ++
              (inst.className.toList ++ ".name)".toList)))) := by
      simp
    rw [h1]
    exact containsChars_append_right _
      (containsChars_of_startsWithChars (startsWithChars_append _ _))
  · unfold strContainsStr loggerNotFoundMessage
    have h1 : ("Logger not found in " ++ inst.className ++ ". " ++
        "Please add: readonly logger = new Logger(" ++ inst.className ++ ".name)").toList
        = "Logger not found in ".toList ++ (inst.className.toList ++
            (". ".toList ++ ("Please add: readonly logger = new Logger(".toList ++
              (inst.className.toList ++ ".name)".toList)))) := by
      simp
    rw [h1]
    exact containsChars_append_right _ (containsChars_append_right _
      (containsChars_append_right _
        (containsChars_of_startsWithChars (startsWithChars_append _ _))))

/-- Witness for C9's amended statement at a concrete call. -/
theorem C9_missing_sink_witness :
    callMethod ⟨false, "TestService"⟩ "loadData" [Value.num 1]
        (MethodVal.wrapped ["id"] {}
          (MethodVal.plain ["id"] (.immediate (Value.num 1)) false) false)
      = ([], .exn (configErrorValue "TestService")) :=
  (C9_missing_sink ⟨false, "TestService"⟩ rfl "loadData" ["id"] {}
    (MethodVal.plain ["id"] (.immediate (Value.num 1)) false) false [Value.num 1]).1

/-- Counterexample to C9 as stated: at the concrete intercepted call
`TestService.loadData(1)` on an instance without the sink, the raised
configuration error is the one whose message is
`loggerNotFoundMessage "TestService"`, and that message does not contain
the method name `"loadData"` anywhere — the error identifies the class
but not the method. -/
theorem C9_counterexample :
    (callMethod ⟨false, "TestService"⟩ "loadData" [Value.num 1]
        (applyToMethod {} (MethodVal.plain ["id"] (.immediate (Value.num 1)) false))).2
      = .exn (configErrorValue "TestService") ∧
    strContainsStr (loggerNotFoundMessage "TestService") "loadData" = false := by
  exact ⟨rfl, by decide⟩

/-- C10 (amended): the error normalizer is a total function; an input
failing the `isAxiosError` test (which requires the marker field to be
strictly the boolean `true`) is returned as-is, and on a recognized
transport error it builds a record carrying the error's name, message,
code and stack, with a falsy `config` degrading to the literal string
`"Empty request"`, a falsy `response` degrading to `"Empty response"`,
and every missing sub-field reading as `undefined` rather than raising. -/
theorem C10_normalizer_contract (e : Value) :
    (isAxiosError e = false → prettifyAxiosError e = e) ∧
    (isAxiosError e = true →
      getField (prettifyAxiosError e) "name" = getField e "name" ∧
      getField (prettifyAxiosError e) "error" = getField e "message" ∧
      getField (prettifyAxiosError e) "code" = getField e "code" ∧
      getField (prettifyAxiosError e) "stack" = getField e "stack" ∧
      (truthy (getField e "config") = false →
        getField (prettifyAxiosError e) "config" = .str "Empty request") ∧
      (truthy (getField e "config") = true →
        getField (prettifyAxiosError e) "config" =
          .obj [("method", getField (getField e "config") "method"),
                ("url", getField (getField e "config") "url"),
                ("baseURL", getField (getField e "config") "baseURL"),
                ("path", getField (getField e "config") "path"),
                ("headers", getField (getField e "config") "headers"),
                ("data", getField (getField e "config") "data"),
                ("params", getField (getField e "config") "params")]) ∧
      (truthy (getField e "response") = false →
        getField (prettifyAxiosError e) "response" = .str "Empty response") ∧
      (truthy (getField e "response") = true →
        getField (prettifyAxiosError e) "response" =
          .obj [("status", getField (getField e "response") "status"),
                ("statusText", getField (getField e "response") "statusText"),
                ("data", getField (getField e "response") "data"),
                ("headers", getField (getField e "response") "headers")])) := by
  constructor
  · intro h; simp [prettifyAxiosError, h]
  · intro h
    have hpretty : prettifyAxiosError e = Value.obj
        [("name", getField e "name"), ("error", getField e "message"),
         ("code", getField e "code"),
         ("config", prettifyRequest (getField e "config")),
         ("response", prettifyResponse (getField e "response")),
         ("stack", getField e "stack")] := by
      simp [prettifyAxiosError, h]
    refine ⟨?_, ?_, ?_, ?_, ?_, ?_, ?_, ?_⟩
    · rw [hpretty, getField_obj]; simp [lookupField]
    · rw [hpretty, getField_obj]; simp [lookupField]
    · rw [hpretty, getField_obj]; simp [lookupField]
    · rw [hpretty, getField_obj]; simp [lookupField]
    · intro hc; rw [hpretty, getField_obj]; simp [lookupField, prettifyRequest, hc]
    · intro hc; rw [hpretty, getField_obj]; simp [lookupField, prettifyRequest, hc]
    · intro hc; rw [hpretty, getField_obj]; simp [lookupField, prettifyResponse, hc]
    · intro hc; rw [hpretty, getField_obj]; simp [lookupField, prettifyResponse, hc]

/-- Witness for C10's amended statement: identity on a plain error value,
and the `"Empty request"` fallback on a transport error without
`config`. -/
theorem C10_normalizer_contract_witness :
    prettifyAxiosError (Value.str "boom") = Value.str "boom" ∧
    getField (prettifyAxiosError (Value.obj [("isAxiosError", Value.bool true),
        ("name", Value.str "AxiosError"), ("message", Value.str "bad")])) "config"
      = Value.str "Empty request" :=
  ⟨(C10_normalizer_contract (Value.str "boom")).1 rfl,
   (((C10_normalizer_contract (Value.obj [("isAxiosError", Value.bool true),
       ("name", Value.str "AxiosError"),
       ("message", Value.str "bad")])).2 rfl).2.2.2.2.1 rfl)⟩

/-- Counterexample to C10 as stated: the object whose `isAxiosError`
field is the number `1` bears a truthy transport-error marker, yet the
normalizer returns it unchanged instead of building the claimed record —
in particular its absent `config` does not degrade to the literal string
`"Empty request"` (the code tests the marker with strict equality to
`true`, not truthiness). -/
theorem C10_counterexample :
    truthy (getField (Value.obj [("isAxiosError", Value.num 1)]) "isAxiosError") = true ∧
    prettifyAxiosError (Value.obj [("isAxiosError", Value.num 1)])
      = Value.obj [("isAxiosError", Value.num 1)] ∧
    getField (prettifyAxiosError (Value.obj [("isAxiosError", Value.num 1)])) "config"
      = Value.undefined ∧
    Value.undefined ≠ Value.str "Empty request" :=
  ⟨rfl, rfl, rfl, fun h => Value.noConfusion h⟩

/-- Full characterization of the modelled `p-retry` loop: at most `r`
retries; the `j`-th recorded backoff delay is `mt * f ^ (k + j)` and
corresponds to a failed attempt accepted by the retry predicate; the
final outcome is the outcome of the attempt following the last retry,
and a final error means retries were exhausted or the predicate rejected
that error. -/
theorem pRetryGo_spec (sr : Value → Bool) (att : Nat → Except Value Value)
    (mt f : Nat) :
    ∀ r k : Nat,
      (pRetryGo sr att mt f r k).1.length ≤ r ∧
      (∀ j, (hj : j < (pRetryGo sr att mt f r k).1.length) →
        (pRetryGo sr att mt f r k).1[j] = mt * f ^ (k + j) ∧
        ∃ ej, att (k + j) = .error ej ∧ sr ej = true) ∧
      (∀ e, (pRetryGo sr att mt f r k).2 = .error e →
        att (k + (pRetryGo sr att mt f r k).1.length) = .error e ∧
        ((pRetryGo sr att mt f r k).1.length = r ∨ sr e = false)) ∧
      (∀ v, (pRetryGo sr att mt f r k).2 = .ok v →
        att (k + (pRetryGo sr att mt f r k).1.length) = .ok v) := by
  intro r
  induction r with
  | zero =>
    intro k
    refine ⟨Nat.le_refl 0, ?_, ?_, ?_⟩
    · intro j hj
      simp [pRetryGo] at hj
    · intro e he
      simp only [pRetryGo] at he ⊢
      exact ⟨he, Or.inl rfl⟩
    · intro v hv
      simp only [pRetryGo] at hv ⊢
      exact hv
  | succ r ih =>
    intro k
    cases hatt : att k with
    | ok v =>
      have hg : pRetryGo sr att mt f (r + 1) k = ([], .ok v) := by
        simp [pRetryGo, hatt]
      rw [hg]
      refine ⟨Nat.zero_le _, ?_, ?_, ?_⟩
      · intro j hj; simp at hj
      · intro e he; simp at he
      · intro w hw
        simp only [List.length_nil, Nat.add_zero]
        simp at hw
        rw [hatt, hw]
    | error e =>
      by_cases hsr : sr e = true
      · have hg : pRetryGo sr att mt f (r + 1) k
            = (mt * f ^ k :: (pRetryGo sr att mt f r (k + 1)).1,
               (pRetryGo sr att mt f r (k + 1)).2) := by
          simp [pRetryGo, hatt, hsr]
        obtain ⟨ih1, ih2, ih3, ih4⟩ := ih (k + 1)
        rw [hg]
        refine ⟨?_, ?_, ?_, ?_⟩
        · simpa using Nat.succ_le_succ ih1
        · intro j hj
          cases j with
          | zero =>
            refine ⟨by simp, e, by simpa using hatt, hsr⟩
          | succ j2 =>
            have hj2 : j2 < (pRetryGo sr att mt f r (k + 1)).1.length := by
              simpa using hj
            obtain ⟨hje, hex⟩ := ih2 j2 hj2
            rw [show k + 1 + j2 = k + (j2 + 1) from by omega] at hje hex
            exact ⟨by simpa using hje, hex⟩
        · intro e2 he2
          obtain ⟨ha, hor⟩ := ih3 e2 (by simpa using he2)
          rw [show k + 1 + (pRetryGo sr att mt f r (k + 1)).1.length
              = k + ((pRetryGo sr att mt f r (k + 1)).1.length + 1) from by omega] at ha
          refine ⟨by simpa using ha, ?_⟩
          rcases hor with hlen | hfalse
          · exact Or.inl (by simp [hlen])
          · exact Or.inr hfalse
        · intro v2 hv2
          have ha := ih4 v2 (by simpa using hv2)
          rw [show k + 1 + (pRetryGo sr att mt f r (k + 1)).1.length
              = k + ((pRetryGo sr att mt f r (k + 1)).1.length + 1) from by omega] at ha
          simpa using ha
      · have hg : pRetryGo sr att mt f (r + 1) k = ([], .error e) := by
          simp [pRetryGo, hatt, hsr]
        rw [hg]
        refine ⟨Nat.zero_le _, ?_, ?_, ?_⟩
        · intro j hj; simp at hj
        · intro e2 he2
          simp only [List.length_nil, Nat.add_zero]
          simp at he2
          subst he2
          exact ⟨hatt, Or.inr (by simpa using hsr)⟩
        · intro v hv; simp at hv

/-- C4: a failed attempt under the transport-retry wrapper is retried
if and only if `isRetryableError` accepts its error — i.e. the error is
not a recognized axios error, or has a falsy response, or has a numeric
response status in `[500, 600)` — at most 5 retries are performed (6
total attempts) with exponential backoff `1000 * 2 ^ k` milliseconds
before the `k`-th retry, and a final failure raises the error of the
last attempt itself, unchanged. -/
theorem C4_http_retry_policy (attempts : Nat → Except Value Value) :
    (withHttpRetry attempts).1.length ≤ 5 ∧
    (∀ j, (hj : j < (withHttpRetry attempts).1.length) →
      (withHttpRetry attempts).1[j] = 1000 * 2 ^ j ∧
      ∃ ej, attempts j = .error ej ∧ isRetryableError ej = true) ∧
    (∀ e, (withHttpRetry attempts).2 = .error e →
      attempts (withHttpRetry attempts).1.length = .error e ∧
      ((withHttpRetry attempts).1.length = 5 ∨ isRetryableError e = false)) ∧
    (∀ v, (withHttpRetry attempts).2 = .ok v →
      attempts (withHttpRetry attempts).1.length = .ok v) ∧
    (∀ e, isRetryableError e = true ↔
      (isAxiosError e = false ∨ truthy (getField e "response") = false ∨
       ∃ s : Int, getField (getField e "response") "status" = .num s ∧
         500 ≤ s ∧ s < 600)) := by
  obtain ⟨h1, h2, h3, h4⟩ := pRetryGo_spec isRetryableError attempts 1000 2 5 0
  refine ⟨h1, ?_, ?_, ?_, ?_⟩
  · intro j hj
    have hh := h2 j hj
    rwa [Nat.zero_add] at hh
  · intro e he
    have hh := h3 e he
    rwa [Nat.zero_add] at hh
  · intro v hv
    have hh := h4 v hv
    rwa [Nat.zero_add] at hh
  · intro e
    constructor
    · intro hr
      unfold isRetryableError at hr
      by_cases ha : isAxiosError e = false
      · exact Or.inl ha
      · rw [if_neg ha] at hr
        by_cases hresp : truthy (getField e "response") = false
        · exact Or.inr (Or.inl hresp)
        · rw [if_neg hresp] at hr
          cases hs : getField (getField e "response") "status" with
          | num s =>
            rw [hs] at hr
            exact Or.inr (Or.inr ⟨s, rfl, by simpa using hr⟩)
          | undefined => rw [hs] at hr; cases hr
          | null => rw [hs] at hr; cases hr
          | bool b => rw [hs] at hr; cases hr
          | str s => rw [hs] at hr; cases hr
          | obj fs => rw [hs] at hr; cases hr
    · intro hcase
      unfold isRetryableError
      rcases hcase with ha | hresp | ⟨s, hs, hlo, hhi⟩
      · rw [if_pos ha]
      · by_cases ha : isAxiosError e = false
        · rw [if_pos ha]
        · rw [if_neg ha, if_pos hresp]
      · by_cases ha : isAxiosError e = false
        · rw [if_pos ha]
        · rw [if_neg ha]
          by_cases hresp : truthy (getField e "response") = false
          · rw [if_pos hresp]
          · rw [if_neg hresp, hs]
            simpa using ⟨hlo, hhi⟩

/-- Witness for C4 at a concrete run: a request that always fails with a
503 transport error performs exactly 5 retries with doubling backoff
from 1000ms, and the final error is that 503 error with retries
exhausted. -/
theorem C4_http_retry_policy_witness :
    (withHttpRetry (fun _ => Except.error (Value.obj
        [("isAxiosError", Value.bool true),
         ("name", Value.str "AxiosError"),
         ("message", Value.str "Request failed with status code 503"),
         ("response", Value.obj [("status", Value.num 503)])]))).1
      = [1000, 2000, 4000, 8000, 16000] ∧
    ((withHttpRetry (fun _ => Except.error (Value.obj
        [("isAxiosError", Value.bool true),
         ("name", Value.str "AxiosError"),
         ("message", Value.str "Request failed with status code 503"),
         ("response", Value.obj [("status", Value.num 503)])]))).1.length = 5 ∨
      isRetryableError (Value.obj
        [("isAxiosError", Value.bool true),
         ("name", Value.str "AxiosError"),
         ("message", Value.str "Request failed with status code 503"),
         ("response", Value.obj [("status", Value.num 503)])]) = false) :=
  ⟨rfl,
   ((C4_http_retry_policy (fun _ => Except.error (Value.obj
        [("isAxiosError", Value.bool true),
         ("name", Value.str "AxiosError"),
         ("message", Value.str "Request failed with status code 503"),
         ("response", Value.obj [("status", Value.num 503)])]))).2.2.1
      (Value.obj
        [("isAxiosError", Value.bool true),
         ("name", Value.str "AxiosError"),
         ("message", Value.str "Request failed with status code 503"),
         ("response", Value.obj [("status", Value.num 503)])]) rfl).2⟩

/-- C5: when the first transport-retry-wrapped attempt of a verb
dispatch fails with a recognized 401 axios error, exactly one
re-authentication round trip is performed followed by exactly one retry
of the request, and the second attempt's outcome — success or any
failure, including a second 401 — is returned or raised directly, with
no further round trip or attempt at this layer; if the re-authentication
itself fails, its error is raised and no retry happens. The
re-authentication is unconditional: even with a token that fails the
60-second freshness check at dispatch entry (so `ensureAuthenticated`
performed no round trip), the 401 path still authenticates. -/
theorem C5_401_single_reauth_retry (st : AuthState) (now : Int)
    (authOutcome : Except Value AuthState) (fn : Nat → Except Value Value)
    (e1 : Value) (h1 : fn 0 = .error e1) (h401 : is401 e1 = true) :
    (∀ st2, authOutcome = .ok st2 →
      withAuthRetryRun authOutcome fn
        = ([.requestAttempt 0, .authRoundTrip, .requestAttempt 1], fn 1)) ∧
    (∀ ae, authOutcome = .error ae →
      withAuthRetryRun authOutcome fn
        = ([.requestAttempt 0, .authRoundTrip], .error ae)) ∧
    (needsRefresh st now = false → ∀ st2, authOutcome = .ok st2 →
      verbDispatch st now authOutcome fn
        = ([.requestAttempt 0, .authRoundTrip, .requestAttempt 1], fn 1)) := by
  refine ⟨?_, ?_, ?_⟩
  · rintro st2 rfl
    simp [withAuthRetryRun, h1, h401]
  · rintro ae rfl
    simp [withAuthRetryRun, h1, h401]
  · rintro hfresh st2 rfl
    simp [verbDispatch, ensureAuthenticatedRun, hfresh, withAuthRetryRun, h1, h401]

/-- Witness for C5 at a concrete dispatch: a request answering 401 on
both attempts, with a fresh token at entry; exactly one round trip, one
retry, and the second 401 raised directly. -/
theorem C5_401_single_reauth_retry_witness :
    verbDispatch ⟨some "tok", 1000000000⟩ 0
        (Except.ok ⟨some "newTok", 1000000000⟩)
        (fun _ => Except.error (Value.obj
          [("isAxiosError", Value.bool true),
           ("response", Value.obj [("status", Value.num 401)])]))
      = ([.requestAttempt 0, .authRoundTrip, .requestAttempt 1],
         Except.error (Value.obj
          [("isAxiosError", Value.bool true),
           ("response", Value.obj [("status", Value.num 401)])])) :=
  (C5_401_single_reauth_retry ⟨some "tok", 1000000000⟩ 0
      (Except.ok ⟨some "newTok", 1000000000⟩)
      (fun _ => Except.error (Value.obj
        [("isAxiosError", Value.bool true),
         ("response", Value.obj [("status", Value.num 401)])]))
      (Value.obj
        [("isAxiosError", Value.bool true),
         ("response", Value.obj [("status", Value.num 401)])])
      rfl rfl).2.2 rfl ⟨some "newTok", 1000000000⟩ rfl

/-- Arrivals while an authentication is in flight only attach to the
existing handle: no new round trip starts, and nothing else changes. -/
theorem runAuth_arrivals (cs : List Nat) :
    ∀ (s : CoalesceState) (ws : List Nat), s.inflight = some ws →
      runAuth (cs.map AuthAction.arrive) s
        = { s with inflight := some (ws ++ cs) } := by
  induction cs with
  | nil =>
    rintro ⟨inf, rt, tok, exp, res⟩ ws h
    simp only at h
    subst h
    simp [runAuth]
  | cons c cs2 ih =>
    rintro ⟨inf, rt, tok, exp, res⟩ ws h
    simp only at h
    subst h
    have hstep : runAuth ((c :: cs2).map AuthAction.arrive)
        ⟨some ws, rt, tok, exp, res⟩
        = runAuth (cs2.map AuthAction.arrive) ⟨some (ws ++ [c]), rt, tok, exp, res⟩ := by
      simp [runAuth, authStep]
    rw [hstep, ih ⟨some (ws ++ [c]), rt, tok, exp, res⟩ (ws ++ [c]) rfl]
    simp

/-- C6: with one client instance and no authentication in flight, if `N`
callers concurrently invoke `authenticate()` while the first caller's
round trip is outstanding, exactly one authentication round trip occurs,
every coalesced caller observes the same outcome (the resolved token and
expiry, or the raised failure), and the in-flight handle is cleared by
the `finally` on success and failure alike. -/
theorem C6_auth_coalescing (s0 : CoalesceState) (h0 : s0.inflight = none)
    (callers : List Nat) (hne : callers ≠ [])
    (o : Except Value (String × Int)) :
    (runAuth (callers.map AuthAction.arrive ++ [AuthAction.complete o]) s0).roundTrips
        = s0.roundTrips + 1 ∧
    (runAuth (callers.map AuthAction.arrive ++ [AuthAction.complete o]) s0).inflight
        = none ∧
    (runAuth (callers.map AuthAction.arrive ++ [AuthAction.complete o]) s0).results
        = s0.results ++ callers.map (fun c => (c, o)) ∧
    (∀ c, c ∈ callers →
      (c, o) ∈ (runAuth (callers.map AuthAction.arrive ++ [AuthAction.complete o]) s0).results) ∧
    (∀ c r,
      (c, r) ∈ (runAuth (callers.map AuthAction.arrive ++ [AuthAction.complete o]) s0).results →
      (c, r) ∈ s0.results ∨ r = o) := by
  obtain ⟨inf, rt, tok, exp, res⟩ := s0
  simp only at h0
  subst h0
  obtain ⟨c, cs, rfl⟩ : ∃ c cs, callers = c :: cs := by
    cases callers with
    | nil => exact absurd rfl hne
    | cons c cs => exact ⟨c, cs, rfl⟩
  have harr : runAuth ((c :: cs).map AuthAction.arrive) ⟨none, rt, tok, exp, res⟩
      = ⟨some (c :: cs), rt + 1, tok, exp, res⟩ := by
    have hfirst : runAuth ((c :: cs).map AuthAction.arrive) ⟨none, rt, tok, exp, res⟩
        = runAuth (cs.map AuthAction.arrive) ⟨some [c], rt + 1, tok, exp, res⟩ := by
      simp [runAuth, authStep]
    rw [hfirst, runAuth_arrivals cs ⟨some [c], rt + 1, tok, exp, res⟩ [c] rfl]
    simp
  have hfull : runAuth ((c :: cs).map AuthAction.arrive ++ [AuthAction.complete o])
      ⟨none, rt, tok, exp, res⟩
      = authStep ⟨some (c :: cs), rt + 1, tok, exp, res⟩ (AuthAction.complete o) := by
    rw [runAuth, List.foldl_append]
    rw [show List.foldl authStep ⟨none, rt, tok, exp, res⟩
        ((c :: cs).map AuthAction.arrive)
        = runAuth ((c :: cs).map AuthAction.arrive) ⟨none, rt, tok, exp, res⟩ from rfl]
    rw [harr]
    rfl
  rw [hfull]
  cases o with
  | ok p =>
    obtain ⟨tokn, expn⟩ := p
    refine ⟨by simp [authStep], by simp [authStep], by simp [authStep], ?_, ?_⟩
    · intro c2 hc2
      simp only [authStep]
      simp only [List.mem_append, List.mem_map]
      exact Or.inr ⟨c2, hc2, rfl⟩
    · intro c2 r hmem
      simp only [authStep] at hmem
      rcases List.mem_append.mp hmem with hl | hr
      · exact Or.inl hl
      · obtain ⟨c3, _, hc3⟩ := List.mem_map.mp hr
        exact Or.inr (congrArg Prod.snd hc3).symm
  | error err =>
    refine ⟨by simp [authStep], by simp [authStep], by simp [authStep], ?_, ?_⟩
    · intro c2 hc2
      simp only [authStep]
      simp only [List.mem_append, List.mem_map]
      exact Or.inr ⟨c2, hc2, rfl⟩
    · intro c2 r hmem
      simp only [authStep] at hmem
      rcases List.mem_append.mp hmem with hl | hr
      · exact Or.inl hl
      · obtain ⟨c3, _, hc3⟩ := List.mem_map.mp hr
        exact Or.inr (congrArg Prod.snd hc3).symm

/-- Witness for C6 at a concrete schedule: three callers coalesce onto
one successful round trip. -/
theorem C6_auth_coalescing_witness :
    (runAuth ([1, 2, 3].map AuthAction.arrive
        ++ [AuthAction.complete (Except.ok ("tok", 100))])
      ⟨none, 0, none, 0, []⟩).roundTrips = 0 + 1 :=
  (C6_auth_coalescing ⟨none, 0, none, 0, []⟩ rfl [1, 2, 3] (by simp)
    (Except.ok ("tok", 100))).1

/-- C7 (amended): the class-level pass does not skip entries that were
already wrapped at method level — a fresh wrapper function carries no
exclusion mark, so `applyToClass` re-wraps it with the class-level
configuration. The inner method-level wrapping keeps its own
configuration and its events are emitted exactly once per call, but the
class-level wrapper emits its own additional events around them: its
`invoked` event (when configured) first, its own `success` event last,
with arguments captured from the wrapper's `(...args)` signature text. -/
theorem C7_class_rewraps_method_wrapped (classOpts mOpts : WrapOptions)
    (pn : List String) (body : MethodResult) (name : String)
    (hname : name ≠ "constructor") (inst : Instance)
    (hlog : inst.hasLogger = true) (args : List Value) :
    classEntry classOpts (name, applyToMethod mOpts (.plain pn body false))
      = (name, applyToMethod classOpts (applyToMethod mOpts (.plain pn body false))) ∧
    (∀ v, body = .immediate v →
      callMethod inst name args
          (applyToMethod classOpts (applyToMethod mOpts (.plain pn body false)))
        = ((if classOpts.onInvoke = true
              then [invokedEvent name (capturedArgs classOpts ["...args"] args)]
              else [])
            ++ (callMethod inst name args (applyToMethod mOpts (.plain pn body false))).1
            ++ [successEvent name (capturedArgs classOpts ["...args"] args)],
           .ret v)) := by
  constructor
  · simp [classEntry, hname, applyToMethod, noLogOf]
  · rintro v rfl
    have hin := callMethod_wrapped_plain inst hlog name pn mOpts false (.immediate v) args
    have houter : applyToMethod classOpts (applyToMethod mOpts
        (MethodVal.plain pn (.immediate v) false))
        = MethodVal.wrapped ["...args"] classOpts
            (applyToMethod mOpts (MethodVal.plain pn (.immediate v) false)) false := by
      simp [applyToMethod, getParameterNamesOf]
    rw [houter]
    rw [show callMethod inst name args (MethodVal.wrapped ["...args"] classOpts
        (applyToMethod mOpts (MethodVal.plain pn (.immediate v) false)) false)
      = (let argsObject := capturedArgs classOpts ["...args"] args
         if inst.hasLogger = false then
           ([], .exn (configErrorValue inst.className))
         else
           let pre := if classOpts.onInvoke = true
             then [invokedEvent name argsObject] else []
           let res := callMethod inst name args
             (applyToMethod mOpts (MethodVal.plain pn (.immediate v) false))
           match res.2 with
           | .ret w => (pre ++ res.1 ++ [successEvent name argsObject], .ret w)
           | .exn e => (pre ++ res.1 ++ [errorEvent name argsObject e], .exn e)
           | .promiseOk w => (pre ++ res.1 ++ [successEvent name argsObject], .promiseOk w)
           | .promiseErr e => (pre ++ res.1 ++ [errorEvent name argsObject e], .promiseErr e))
      from rfl]
    rw [hin]
    simp [hlog, outcomeOfBody]

/-- Witness for C7's amended statement at a concrete call: the doubly
wrapped method keeps the inner method-level events and the outer
class-level wrapper appends its own success event. -/
theorem C7_class_rewraps_method_wrapped_witness :
    classEntry {} ("method2",
        applyToMethod { onInvoke := true }
          (MethodVal.plain ["name"] (.immediate (Value.str "ok")) false))
      = ("method2", applyToMethod {}
          (applyToMethod { onInvoke := true }
            (MethodVal.plain ["name"] (.immediate (Value.str "ok")) false))) :=
  (C7_class_rewraps_method_wrapped {} { onInvoke := true } ["name"]
    (.immediate (Value.str "ok")) "method2" (by decide) ⟨true, "TestService"⟩ rfl
    [Value.str "test"]).1

/-- C3: argument capture returns `undefined` (`none`) exactly when both
the parameter-name list and the argument list are empty; otherwise it
returns the mapping with exactly `min(N, M)` entries associating `P[i]`
with `A[i]` in declaration order — arguments beyond `N` are dropped and
parameter names beyond `M` are omitted rather than mapped to
`undefined`. Parameter names are pairwise distinct (the spec's data
model: parameter names are unique, in declaration order). -/
theorem C3_buildArgsObject (P : List String) (A : List Value) (hnodup : P.Nodup) :
    (buildArgsObject P A = none ↔ (P = [] ∧ A = [])) ∧
    (¬(P = [] ∧ A = []) →
      buildArgsObject P A = some (P.zip A) ∧
      (P.zip A).length = min P.length A.length ∧
      (∀ i, i < min P.length A.length →
        ∃ p a, P[i]? = some p ∧ A[i]? = some a ∧ (P.zip A)[i]? = some (p, a))) := by
  have hcond : (A.length = 0 ∧ P.length = 0) ↔ (P = [] ∧ A = []) := by
    rw [List.length_eq_zero, List.length_eq_zero]
    exact and_comm
  have hfold : P.enum.foldl (buildArgsStep A) [] = P.zip A := by
    have h1 : P.enum = List.enumFrom 0 P := rfl
    rw [h1, buildArgs_foldl_spec A P 0 [] hnodup (by simp [fieldKeys])]
    rw [List.nil_append, zipFromIdx_eq_zip A P 0, List.drop_zero]
  constructor
  · unfold buildArgsObject
    by_cases hc : A.length = 0 ∧ P.length = 0
    · simp [hc, hcond.mp hc]
    · rw [if_neg hc]
      simp only [reduceCtorEq, false_iff]
      exact fun hpa => hc (hcond.mpr hpa)
  · intro hne
    have hc : ¬(A.length = 0 ∧ P.length = 0) := fun hh => hne (hcond.mp hh)
    refine ⟨?_, List.length_zip P A, ?_⟩
    · unfold buildArgsObject
      rw [if_neg hc, hfold]
    · intro i hi
      have hip : i < P.length := lt_of_lt_of_le hi (min_le_left _ _)
      have hia : i < A.length := lt_of_lt_of_le hi (min_le_right _ _)
      have hiz : i < (P.zip A).length := by
        rw [List.length_zip]; exact hi
      exact ⟨P[i], A[i], List.getElem?_eq_getElem hip,
        List.getElem?_eq_getElem hia,
        by rw [List.getElem?_eq_getElem hiz, List.getElem_zip]⟩

/-- Witness for C3 at the concrete example from the spec:
`buildArgsObject(['id', 'name'], [1, 'John'])` produces the two-entry
mapping in declaration order. -/
theorem C3_buildArgsObject_witness :
    buildArgsObject ["id", "name"] [Value.num 1, Value.str "John"]
      = some [("id", Value.num 1), ("name", Value.str "John")] :=
  (((C3_buildArgsObject ["id", "name"] [Value.num 1, Value.str "John"]
      (by decide)).2 (by simp)).1).trans rfl

/-- Counterexample to C7 as stated: after a method-level application with
`onInvoke: true` and a subsequent class-level application with default
options, a single call through the resulting table entry emits two
`success` events (the inner method-level one and the extra outer
class-level one) and one `invoked` event — not the events of the
method-level wrapping exactly once. -/
theorem C7_counterexample :
    ((callMethod ⟨true, "TestService"⟩ "method2" [Value.str "test"]
        (classEntry {} ("method2",
          applyToMethod { onInvoke := true }
            (MethodVal.plain ["name"] (.immediate (Value.str "ok")) false))).2).1.countP
        (fun ev => decide (ev.state = LogState.success))) = 2 ∧
    ((callMethod ⟨true, "TestService"⟩ "method2" [Value.str "test"]
        (classEntry {} ("method2",
          applyToMethod { onInvoke := true }
            (MethodVal.plain ["name"] (.immediate (Value.str "ok")) false))).2).1.countP
        (fun ev => decide (ev.state = LogState.invoked))) = 1 := by
  exact ⟨rfl, rfl⟩

end LogDecorator
